import Mathlib

/-!
Verification development for the filter pipeline of `csscrape`
(`src/interpreter/filter.rs` and the `filter-proc-macro` crate).

The tagged-union `Value` type, the `TryFromValue`/`Or` coercion machinery
and `ElementContext::set_var` live in interpreter modules that are not part
of the sources given here; those few definitions are modelled from the
spec (their doc comments say so).  Everything else is translated directly
from `src/interpreter/filter.rs` and the expansion of the
`#[derive(Args)]` / `#[filter_fn]` macros in `filter-proc-macro/src/lib.rs`.

Machine integers: Rust `i64` values are modelled as `Int` (every `Value.int`
the interpreter constructs is an `i64`; no filter here performs `i64`
arithmetic that could overflow).  Rust `usize` subtraction in `nth` is
modelled explicitly: `checkedSub` returns `none` on underflow (the
overflow-checked panic of a debug build) and `wrappingSub` wraps modulo
`2^64` (the release build semantics); see `nth` and `nthWrap`.
Rust `f64` is modelled as `Rat`: the only float operation in this subsystem
is the `x as i64` truncating cast in `int`, which on every finite float
agrees with rational truncation toward zero with saturation at the `i64`
bounds (`f64ToI64Cast`).
-/

/-- Modelled from the spec (§3, the `Value` enum lives in the interpreter's
value module, not among the given sources): the closed tagged union of
runtime values.  `element` is the `DocumentNodeReference` variant; for this
subsystem only its attribute list (name/value text pairs, in document
order) is observable, via the `attrs` filter. -/
inductive Value where
  | null : Value
  | bool : Bool → Value
  | int : Int → Value
  | float : Rat → Value
  | str : String → Value
  | list : List Value → Value
  | structure : List (String × Value) → Value
  | element : List (String × String) → Value
deriving Inhabited

/-- `type Structure<'doc> = BTreeMap<Arc<str>, Value<'doc>>` — modelled as an
association list whose well-formed inhabitants have strictly ascending keys
(`SortedKeys`).  Rust's `Ord` on `Arc<str>` is bytewise lexicographic order
on the UTF-8 encoding, which coincides with Lean's `String` order. -/
abbrev Structure := List (String × Value)

/-- The `BTreeMap` invariant: keys strictly ascending (hence unique). -/
def SortedKeys (s : Structure) : Prop :=
  List.Pairwise (fun a b : String × Value => a.1 < b.1) s

instance : DecidablePred SortedKeys := fun s =>
  inferInstanceAs (Decidable (List.Pairwise _ s))

/-- `BTreeMap::insert` on the sorted-association-list model: place `(k, v)`
at its ordered position, replacing an existing binding of `k`. -/
def insertSorted (k : String) (v : Value) : Structure → Structure
  | [] => [(k, v)]
  | (k', v') :: rest =>
    if k < k' then (k, v) :: (k', v') :: rest
    else if k = k' then (k, v) :: rest
    else (k', v') :: insertSorted k v rest

/-- Collecting an iterator of pairs into a `BTreeMap`
(`collect::<BTreeMap<_, _>>()`): left-to-right insertion into the empty
map, later duplicates replacing earlier ones. -/
def collectStructure (l : List (String × Value)) : Structure :=
  l.foldl (fun m kv => insertSorted kv.1 kv.2 m) []

/-- `usize` subtraction with overflow checks on (debug profile): `none`
models the arithmetic-overflow panic. -/
def checkedSub (a b : Nat) : Option Nat :=
  if b ≤ a then some (a - b) else none

/-- `usize` subtraction with overflow checks off (release profile):
two's-complement wrapping modulo `2^64`. -/
def wrappingSub (a b : Nat) : Nat :=
  (a + (2 ^ 64 - b % 2 ^ 64)) % 2 ^ 64

/-!  ### The builtin filter bodies (`src/interpreter/filter.rs`) -/

/-- `fn id(value: Value) -> anyhow::Result<Value> { Ok(value) }` — defined in
the source but (see `BUILTIN_FILTERS`) never registered. -/
def idFilter (value : Value) : Except String Value := .ok value

/-- `fn strip(value: Arc<str>)`: trims leading/trailing whitespace. -/
def strip (value : String) : Except String Value :=
  .ok (.str value.trim)

/-- `fn dbg(value, msg: Option<Arc<str>>)`: prints to stderr (diagnostic
output, not modelled) and passes the value through. -/
def dbgFilter (value : Value) (_msg : Option String) : Except String Value :=
  .ok value

/-- `fn take(mut value: Structure, key: Arc<str>)`:
`value.remove(&key).unwrap_or(Value::Null)`. -/
def take (value : Structure) (key : String) : Except String Value :=
  .ok (match value.lookup key with
       | some v => v
       | none => .null)

/-- `fn attrs(value: scraper::ElementRef)`: builds a `Structure` of the
node's attribute pairs by `collect()`. -/
def attrs (value : List (String × String)) : Except String Value :=
  .ok (.structure (collectStructure (value.map fun kv => (kv.1, .str kv.2))))

/-- `fn nth(value: Vec<Value>, i: i64)` under the debug (overflow-checked)
profile.  `i <= -1` computes `value.len() - i.unsigned_abs()` in `usize`;
`none` is the panic of that subtraction underflowing.  A non-negative `i`
indexes directly; `Iterator::nth` past the end yields `None`, turned into
`anyhow::bail!("")` — note the empty message. -/
def nth (value : List Value) (i : Int) : Option (Except String Value) :=
  match if i ≤ -1 then checkedSub value.length i.natAbs else some i.toNat with
  | none => none
  | some ix =>
    some (match value.get? ix with
          | some x => .ok x
          | none => .error "")

/-- `fn nth` under the release (wrapping) profile: identical except that the
underflowing subtraction wraps, producing a huge index and hence the same
`bail!("")` error path. -/
def nthWrap (value : List Value) (i : Int) : Except String Value :=
  let ix := if i ≤ -1 then wrappingSub value.length i.natAbs else i.toNat
  match value.get? ix with
  | some x => .ok x
  | none => .error ""

/-- `fn keys(value: Structure)`: `value.into_keys().map(Value::String)`. -/
def keys (value : Structure) : Except String Value :=
  .ok (.list (value.map fun kv => .str kv.1))

/-- `fn values(value: Structure)`: `value.into_values()`. -/
def valuesFilter (value : Structure) : Except String Value :=
  .ok (.list (value.map fun kv => kv.2))

/-- `fn entries(value: Structure)`: each `(k, v)` becomes
`Value::List(vec![Value::String(k), v])`, in the map's ascending key
order. -/
def entries (value : Structure) : Except String Value :=
  .ok (.list (value.map fun kv => .list [.str kv.1, kv.2]))

/-- One step of `from_entries`: `let tuple: Vec<_> = x.try_into()?` (the
`TryFromValue` coercion to a list — tag match, modelled from spec §4.1),
then the arity-2 pattern with error `"Expected a `List([key, value])`"`,
then `k.try_into::<Arc<str>>()?` (tag match). -/
def fromEntriesStep (x : Value) : Except String (String × Value) :=
  match x with
  | .list [k, v] =>
    match k with
    | .str ks => .ok (ks, v)
    | _ => .error "expected a string"
  | .list _ => .error "Expected a `List([key, value])`"
  | _ => .error "expected a list"

/-- `fn from_entries(value: Vec<Value>)`: map `fromEntriesStep` over the
list, short-circuiting on the first error, and collect the pairs into a
`BTreeMap` wrapped in `Value::Structure`. -/
def from_entries (value : List Value) : Except String Value := do
  let pairs ← value.mapM fromEntriesStep
  .ok (.structure (collectStructure pairs))

/-- Rust `i64::from_str` (used by `s.parse()` in `int`): optional single
sign, then one or more ASCII digits, rejecting anything else and values
outside the `i64` range. -/
def parseI64 (s : String) : Option Int :=
  let chars := s.data
  let signed : Bool × List Char :=
    match chars with
    | '-' :: rest => (true, rest)
    | '+' :: rest => (false, rest)
    | _ => (false, chars)
  match signed with
  | (neg, digits) =>
    if digits = [] then none
    else if digits.all Char.isDigit then
      let mag : Nat := digits.foldl (fun acc c => acc * 10 + (c.toNat - '0'.toNat)) 0
      let v : Int := if neg then -(mag : Int) else (mag : Int)
      if -(2 ^ 63) ≤ v ∧ v ≤ 2 ^ 63 - 1 then some v else none
    else none

/-- Truncation of a rational toward zero. -/
def ratTrunc (q : Rat) : Int :=
  if 0 ≤ q.num then ((q.num.toNat / q.den : Nat) : Int)
  else -((q.num.natAbs / q.den : Nat) : Int)

/-- The Rust `x as i64` cast on a (finite) float: truncate toward zero,
saturating at the `i64` bounds. -/
def f64ToI64Cast (q : Rat) : Int :=
  max (-(2 ^ 63)) (min (2 ^ 63 - 1) (ratTrunc q))

/-- `fn int(value: Or<i64, Or<f64, Arc<str>>>)`: integer passthrough, float
cast with `as i64`, or string parse whose failure context is
`` `format!("`{s}` is not an integer.")` ``. -/
def intFilter (value : Int ⊕ Rat ⊕ String) : Except String Value :=
  match value with
  | .inl n => .ok (.int n)
  | .inr (.inl x) => .ok (.int (f64ToI64Cast x))
  | .inr (.inr s) =>
    match parseI64 s with
    | some n => .ok (.int n)
    | none => .error ("`" ++ s ++ "` is not an integer.")

/-- Rust `f64::from_str` is not needed by any claim; the string branch of
`float` is kept abstract as a parameter where it matters.  This is the
passthrough/widening part of `fn float(value: Or<f64, Or<i64, Arc<str>>>)`
with the string branch always reported as the parse-failure context
`` `format!("`{s}` is not a float.")` `` when the abstract parse fails. -/
def floatFilter (parse : String → Option Rat) (value : Rat ⊕ Int ⊕ String) :
    Except String Value :=
  match value with
  | .inl x => .ok (.float x)
  | .inr (.inl n) => .ok (.float (n : Rat))
  | .inr (.inr s) =>
    match parse s with
    | some x => .ok (.float x)
    | none => .error ("`" ++ s ++ "` is not a float.")

/-!  ### Value coercion (`TryFromValue`, modelled from spec §4.1) -/

/-- The kind tag of a `Value`, used in coercion error messages. -/
def Value.kindName : Value → String
  | .null => "Null"
  | .bool _ => "Bool"
  | .int _ => "Int"
  | .float _ => "Float"
  | .str _ => "String"
  | .list _ => "List"
  | .structure _ => "Structure"
  | .element _ => "Element"

/-- Modelled from the spec (§4.1, §7): the `TypeMismatch(expected, actual)`
coercion error, as a message naming both kinds. -/
def typeMismatchMsg (expected : String) (actual : Value) : String :=
  "expected `" ++ expected ++ "`, got `" ++ actual.kindName ++ "`"

/-- Modelled from the spec (§4.1): coercion of a `Value` to `Value` is the
identity (every filter taking `value: Value` accepts anything). -/
def coerceValue (v : Value) : Except String Value := .ok v

/-- Modelled from the spec (§4.1): coercion to `Arc<str>` is a direct tag
match on `String`. -/
def coerceString : Value → Except String String
  | .str s => .ok s
  | v => .error (typeMismatchMsg "String" v)

/-- Modelled from the spec (§4.1): coercion to `Structure` is a direct tag
match. -/
def coerceStructure : Value → Except String Structure
  | .structure s => .ok s
  | v => .error (typeMismatchMsg "Structure" v)

/-- Modelled from the spec (§4.1): coercion to `Vec<Value>` is a direct tag
match on `List`. -/
def coerceList : Value → Except String (List Value)
  | .list l => .ok l
  | v => .error (typeMismatchMsg "List" v)

/-- Modelled from the spec (§4.1): coercion to `i64` is a direct tag match
on `Int`. -/
def coerceInt : Value → Except String Int
  | .int n => .ok n
  | v => .error (typeMismatchMsg "Int" v)

/-- Modelled from the spec (§4.1): coercion to `scraper::ElementRef` is a
direct tag match on the document-node-reference variant. -/
def coerceElement : Value → Except String (List (String × String))
  | .element a => .ok a
  | v => .error (typeMismatchMsg "Element" v)

/-- Modelled from the spec (§4.1): `Or<i64, Or<f64, Arc<str>>>` tries the
alternatives left to right; since the tags are disjoint this is a three-way
tag match, and an exhausted chain reports the error of the last alternative
(the `String` coercion). -/
def coerceIntOr : Value → Except String (Int ⊕ Rat ⊕ String)
  | .int n => .ok (.inl n)
  | .float x => .ok (.inr (.inl x))
  | .str s => .ok (.inr (.inr s))
  | v => .error (typeMismatchMsg "String" v)

/-- Modelled from the spec (§4.1): `Or<f64, Or<i64, Arc<str>>>`, as in
`coerceIntOr`. -/
def coerceFloatOr : Value → Except String (Rat ⊕ Int ⊕ String)
  | .float x => .ok (.inl x)
  | .int n => .ok (.inr (.inl n))
  | .str s => .ok (.inr (.inr s))
  | v => .error (typeMismatchMsg "String" v)

/-!  ### Named-argument maps and the `#[derive(Args)]` deserializer -/

/-- `BTreeMap::remove` on the association-list model (a well-formed map has
unique keys, so removing the first occurrence is removal). -/
def eraseKey (k : String) : List (String × Value) → List (String × Value)
  | [] => []
  | (k', v) :: rest => if k' = k then rest else (k', v) :: eraseKey k rest

/-- Modelled from the spec: the `Debug` rendering of a single `Value` inside
a `{args:?}` error message.  The `Debug` instance for `Value` is derived in
the missing value module, so aggregate contents are rendered opaquely; the
claims only rely on argument *names* appearing in the message. -/
def renderValue : Value → String
  | .null => "Null"
  | .bool b => "Bool(" ++ (if b then "true" else "false") ++ ")"
  | .int n => "Int(" ++ toString n ++ ")"
  | .float q => "Float(" ++ toString q ++ ")"
  | .str s => "String(\x22" ++ s ++ "\x22)"
  | .list _ => "List(..)"
  | .structure _ => "Structure(..)"
  | .element _ => "Element(..)"

/-- One `"key": value` item of a `BTreeMap` `Debug` rendering. -/
def renderPair (k : String) (v : Value) : String :=
  "\x22" ++ k ++ "\x22: " ++ renderValue v

/-- The comma-separated items of a `BTreeMap` `Debug` rendering. -/
def renderPairs : List (String × Value) → String
  | [] => ""
  | [(k, v)] => renderPair k v
  | (k, v) :: rest => renderPair k v ++ ", " ++ renderPairs rest

/-- The `Debug` rendering `{args:?}` of a whole argument map. -/
def renderArgsMap (m : List (String × Value)) : String :=
  "\x7b" ++ renderPairs m ++ "\x7d"

/-- `impl Args for ()` (filter.rs): reject any non-empty argument map with
`` `Found unexpected arguments `{args:?}`` `` (this one formats the map
between backticks). -/
def unitArgsDeserialize (args : List (String × Value)) : Except String Unit :=
  if args.isEmpty then .ok ()
  else .error ("Found unexpected arguments `" ++ renderArgsMap args ++ "`")

/-- The field-extraction loop of the `#[derive(Args)]` expansion
(`filter-proc-macro/src/lib.rs`, `derive_args_impl`): for each declared
non-marker field in declaration order,
`let f = TryFromValue::try_from_option_value(args.remove("f"))?;` —
remove the entry and run the field's coercion (abstract here, since
`TryFromValue` lives in the missing value module), short-circuiting on the
first failure.  Returns the extracted values and the depleted map. -/
def extractFields (coerce : String → Option Value → Except String Value) :
    List String → List (String × Value) →
    Except String (List Value × List (String × Value))
  | [], args => .ok ([], args)
  | f :: fs, args => do
    let v ← coerce f (args.lookup f)
    let (vs, rest) ← extractFields coerce fs (eraseKey f args)
    .ok (v :: vs, rest)

/-- `try_deserialize` as generated by `#[derive(Args)]`: extract every
declared field, then `if !args.is_empty() { bail!("Found unexpected
arguments {args:?}") }`. -/
def derivedArgsDeserialize (coerce : String → Option Value → Except String Value)
    (fields : List String) (args : List (String × Value)) :
    Except String (List Value) := do
  let (vs, rest) ← extractFields coerce fields args
  if rest.isEmpty then .ok vs
  else .error ("Found unexpected arguments " ++ renderArgsMap rest)

/-- Modelled from the spec (§4.2): `try_from_option_value` for a required
`Arc<str>` parameter — a missing entry is a missing-argument error, a
present entry must coerce from the `String` tag. -/
def requiredStringArg (name : String) : Option Value → Except String String
  | none => .error ("missing argument `" ++ name ++ "`")
  | some v => coerceString v

/-- Modelled from the spec (§4.2): `try_from_option_value` for a required
`i64` parameter. -/
def requiredIntArg (name : String) : Option Value → Except String Int
  | none => .error ("missing argument `" ++ name ++ "`")
  | some v => coerceInt v

/-- Modelled from the spec (§4.2): `try_from_option_value` for an
`Option<Arc<str>>` parameter — absence yields `None`. -/
def optionalStringArg (_name : String) : Option Value → Except String (Option String)
  | none => .ok none
  | some v => (coerceString v).map some

/-- The generated `Args` deserializer of a `#[filter_fn]` with no declared
parameters (only the `_marker` field, which extracts nothing): the leftover
check alone. -/
def noArgsDeserialize (args : List (String × Value)) : Except String Unit :=
  if args.isEmpty then .ok ()
  else .error ("Found unexpected arguments " ++ renderArgsMap args)

/-- The generated `nth::Args` deserializer: extract `i: i64`, then the
leftover check. -/
def nthArgsDeserialize (args : List (String × Value)) : Except String Int := do
  let i ← requiredIntArg "i" (args.lookup "i")
  let rest := eraseKey "i" args
  if rest.isEmpty then .ok i
  else .error ("Found unexpected arguments " ++ renderArgsMap rest)

/-- The generated `tee::Args` deserializer: extract `into: Arc<str>`, then
the leftover check. -/
def teeArgsDeserialize (args : List (String × Value)) : Except String String := do
  let into ← requiredStringArg "into" (args.lookup "into")
  let rest := eraseKey "into" args
  if rest.isEmpty then .ok into
  else .error ("Found unexpected arguments " ++ renderArgsMap rest)

/-- The generated `take::Args` deserializer: extract `key: Arc<str>`, then
the leftover check. -/
def takeArgsDeserialize (args : List (String × Value)) : Except String String := do
  let key ← requiredStringArg "key" (args.lookup "key")
  let rest := eraseKey "key" args
  if rest.isEmpty then .ok key
  else .error ("Found unexpected arguments " ++ renderArgsMap rest)

/-- The generated `dbg::Args` deserializer: extract `msg: Option<Arc<str>>`
(optional), then the leftover check. -/
def dbgArgsDeserialize (args : List (String × Value)) :
    Except String (Option String) := do
  let msg ← optionalStringArg "msg" (args.lookup "msg")
  let rest := eraseKey "msg" args
  if rest.isEmpty then .ok msg
  else .error ("Found unexpected arguments " ++ renderArgsMap rest)

/-!  ### Evaluation context, filter contract and dynamic adapter -/

/-- Modelled from the spec (§6, GLOSSARY): the evaluation context's variable
bindings, the only state a filter may touch. -/
abbrev ElementContext := List (String × Value)

/-- Modelled from the spec (§6): the context capability
`set_var(name, value) -> Result<(), Error>`; in this model binding always
succeeds by prepending (an error outcome is still in the codomain, which is
all `tee` depends on). -/
def set_var (ctx : ElementContext) (name : String) (v : Value) :
    Except String ElementContext :=
  .ok ((name, v) :: ctx)

/-- `fn tee(value, into: Arc<str>, ctx)` parametric in the context-binding
capability `sv` (the real `set_var` belongs to the missing interpreter
module): `ctx.set_var(into.to_string().into(), value.clone())?; Ok(value)`. -/
def teeWith (sv : String → Value → ElementContext → Except String ElementContext)
    (value : Value) (into : String) (ctx : ElementContext) :
    Except String (Value × ElementContext) := do
  let ctx' ← sv into value ctx
  .ok (value, ctx')

/-- The registered `tee`, using the modelled `set_var`. -/
def tee (value : Value) (into : String) (ctx : ElementContext) :
    Except String (Value × ElementContext) :=
  teeWith (fun n v c => set_var c n v) value into ctx

/-- The erased outcome of one filter invocation: `none` models a Rust panic
(reachable only through `nth`'s debug-profile subtraction), `some` carries
the `anyhow::Result<Value>` together with the (possibly updated) context. -/
abbrev FilterOut := Option (Except String (Value × ElementContext))

/-- The uniform shape a registered filter exposes
(`FilterDyn::apply`): erased value, raw argument map, context. -/
abbrev FilterDynT := Value → List (String × Value) → ElementContext → FilterOut

/-- A filter body that neither panics nor touches the context, lifted to
`FilterOut`. -/
def liftPure (ctx : ElementContext) (r : Except String Value) : FilterOut :=
  some (r.map fun v => (v, ctx))

/-- `impl<F: Filter> FilterDyn for F` (filter.rs):
`F::apply(value.try_into()?, F::Args::try_deserialize(args)?, ctx)` — the
value coercion runs first, then argument deserialization; only if both
succeed does the filter body run. -/
def applyDyn {V A : Type} (coe : Value → Except String V)
    (des : List (String × Value) → Except String A)
    (body : V → A → ElementContext → FilterOut) : FilterDynT :=
  fun value args ctx =>
    match coe value with
    | .error e => some (.error e)
    | .ok v =>
      match des args with
      | .error e => some (.error e)
      | .ok a => body v a ctx

/-!  ### The erased builtin filters and the registry -/

/-- `dbg` behind the dynamic adapter. -/
def dbgDyn : FilterDynT :=
  applyDyn coerceValue dbgArgsDeserialize fun v msg ctx => liftPure ctx (dbgFilter v msg)

/-- `tee` behind the dynamic adapter. -/
def teeDyn : FilterDynT :=
  applyDyn coerceValue teeArgsDeserialize fun v into ctx => some (tee v into ctx)

/-- `strip` behind the dynamic adapter. -/
def stripDyn : FilterDynT :=
  applyDyn coerceString noArgsDeserialize fun s _ ctx => liftPure ctx (strip s)

/-- `take` behind the dynamic adapter. -/
def takeDyn : FilterDynT :=
  applyDyn coerceStructure takeArgsDeserialize fun s key ctx => liftPure ctx (take s key)

/-- `attrs` behind the dynamic adapter. -/
def attrsDyn : FilterDynT :=
  applyDyn coerceElement noArgsDeserialize fun a _ ctx => liftPure ctx (attrs a)

/-- `int` behind the dynamic adapter. -/
def intDyn : FilterDynT :=
  applyDyn coerceIntOr noArgsDeserialize fun v _ ctx => liftPure ctx (intFilter v)

/-- `float` behind the dynamic adapter, parametric in the `f64` string parse
(`f64::from_str` is outside the given sources and floats are modelled as
rationals). -/
def floatDyn (parse : String → Option Rat) : FilterDynT :=
  applyDyn coerceFloatOr noArgsDeserialize fun v _ ctx => liftPure ctx (floatFilter parse v)

/-- `nth` behind the dynamic adapter; its body is the only one that can
panic, hence the `Option.map`. -/
def nthDyn : FilterDynT :=
  applyDyn coerceList nthArgsDeserialize fun l i ctx =>
    (nth l i).map (·.map fun v => (v, ctx))

/-- `keys` behind the dynamic adapter. -/
def keysDyn : FilterDynT :=
  applyDyn coerceStructure noArgsDeserialize fun s _ ctx => liftPure ctx (keys s)

/-- `values` behind the dynamic adapter. -/
def valuesDyn : FilterDynT :=
  applyDyn coerceStructure noArgsDeserialize fun s _ ctx => liftPure ctx (valuesFilter s)

/-- `entries` behind the dynamic adapter. -/
def entriesDyn : FilterDynT :=
  applyDyn coerceStructure noArgsDeserialize fun s _ ctx => liftPure ctx (entries s)

/-- `from_entries` behind the dynamic adapter. -/
def fromEntriesDyn : FilterDynT :=
  applyDyn coerceList noArgsDeserialize fun l _ ctx => liftPure ctx (from_entries l)

/-- `BUILTIN_FILTERS` (filter.rs, the `build_map!` invocation): the twelve
registered names with their erased filters, collected into a map (an
association list here; lookup is by key, so representation order is
irrelevant).  `id` is not in the list.  Parametric in the `f64` string
parse needed by `float`. -/
def BUILTIN_FILTERS (parse : String → Option Rat) : List (String × FilterDynT) :=
  [("dbg", dbgDyn), ("tee", teeDyn), ("strip", stripDyn), ("take", takeDyn),
   ("attrs", attrsDyn), ("int", intDyn), ("float", floatDyn parse), ("nth", nthDyn),
   ("keys", keysDyn), ("values", valuesDyn), ("entries", entriesDyn),
   ("from_entries", fromEntriesDyn)]

/-- `pub fn dispatch_filter(name, value, args, ctx)` (filter.rs lines
213–223): look the name up in `BUILTIN_FILTERS`; on a hit delegate to the
erased filter, otherwise `bail!("unrecognized filter `{name}`")`. -/
def dispatch_filter (parse : String → Option Rat) (name : String) (value : Value)
    (args : List (String × Value)) (ctx : ElementContext) : FilterOut :=
  match (BUILTIN_FILTERS parse).lookup name with
  | some filter => filter value args ctx
  | none => some (.error ("unrecognized filter `" ++ name ++ "`"))

/-!  ### A substring test, for stating what an error message names -/

/-- Does `needle` occur contiguously in `hay`? -/
def subchain : List Char → List Char → Bool
  | needle, [] => needle.isEmpty
  | needle, c :: t => needle.isPrefixOf (c :: t) || subchain needle t

/-- Does `needle` occur contiguously in `hay`?  Used to state that an
error message names a given argument, index or input text. -/
def strOccurs (needle hay : String) : Bool :=
  subchain needle.data hay.data

theorem isPrefixOf_append_self (n t : List Char) : n.isPrefixOf (n ++ t) = true := by
  induction n with
  | nil => simp [List.isPrefixOf]
  | cons a as ih => simp [List.isPrefixOf, ih]

theorem subchain_append_self (n suf : List Char) : subchain n (n ++ suf) = true := by
  cases h : n ++ suf with
  | nil =>
    rcases List.append_eq_nil.mp h with ⟨hn, _⟩
    subst hn
    rfl
  | cons c t =>
    show (n.isPrefixOf (c :: t) || subchain n t) = true
    rw [← h, isPrefixOf_append_self]
    rfl

theorem subchain_cons (c : Char) (n t : List Char) (h : subchain n t = true) :
    subchain n (c :: t) = true := by
  show (n.isPrefixOf (c :: t) || subchain n t) = true
  rw [h, Bool.or_true]

theorem subchain_append_left (h1 : List Char) {n h2 : List Char}
    (h : subchain n h2 = true) : subchain n (h1 ++ h2) = true := by
  induction h1 with
  | nil => simpa using h
  | cons c t ih => exact subchain_cons c n (t ++ h2) ih

/-- If a string literally decomposes around `needle`, the substring test
finds it. -/
theorem strOccurs_of_data_decomp (needle hay : String) (pre suf : List Char)
    (h : hay.data = pre ++ needle.data ++ suf) : strOccurs needle hay = true := by
  show subchain needle.data hay.data = true
  rw [h, List.append_assoc]
  exact subchain_append_left pre (subchain_append_self needle.data suf)

/-!  ### Sorted-map lemmas for the `entries` / `from_entries` round trip -/

theorem insertSorted_append_last (k : String) (v : Value) (acc : Structure)
    (h : ∀ p ∈ acc, p.1 < k) : insertSorted k v acc = acc ++ [(k, v)] := by
  induction acc with
  | nil => rfl
  | cons p rest ih =>
    have hp : p.1 < k := h p (List.mem_cons_self p rest)
    have h1 : ¬ k < p.1 := not_lt_of_gt hp
    have h2 : ¬ k = p.1 := fun e => absurd hp (by rw [e]; exact lt_irrefl _)
    obtain ⟨q, w⟩ := p
    simp only [insertSorted, if_neg h1, if_neg h2, List.cons_append, List.cons.injEq,
      true_and]
    exact ih fun r hr => h r (List.mem_cons_of_mem _ hr)

theorem foldl_insertSorted_eq_append (s acc : Structure)
    (hlt : ∀ p ∈ acc, ∀ q ∈ s, p.1 < q.1) (hs : SortedKeys s) :
    s.foldl (fun m kv => insertSorted kv.1 kv.2 m) acc = acc ++ s := by
  induction s generalizing acc with
  | nil => simp
  | cons kv rest ih =>
    rcases List.pairwise_cons.mp hs with ⟨hhead, htail⟩
    have hacc : insertSorted kv.1 kv.2 acc = acc ++ [kv] := by
      refine insertSorted_append_last kv.1 kv.2 acc fun p hp => ?_
      exact hlt p hp kv (List.mem_cons_self kv rest)
    show List.foldl _ (insertSorted kv.1 kv.2 acc) rest = acc ++ kv :: rest
    rw [hacc, ih (acc ++ [kv]) ?_ htail, List.append_assoc]
    · rfl
    · intro p hp q hq
      rcases List.mem_append.mp hp with hp' | hp'
      · exact hlt p hp' q (List.mem_cons_of_mem _ hq)
      · rcases List.mem_singleton.mp hp' with rfl
        exact hhead q hq

/-- On a map satisfying the `BTreeMap` invariant, collecting the entry list
back rebuilds the map unchanged. -/
theorem collectStructure_of_sorted (s : Structure) (hs : SortedKeys s) :
    collectStructure s = s := by
  have := foldl_insertSorted_eq_append s [] (by intro p hp; cases hp) hs
  simpa [collectStructure] using this

/-- Parsing back the list `entries` builds succeeds entrywise. -/
theorem mapM_fromEntriesStep_entries (s : Structure) :
    (s.map fun kv => Value.list [.str kv.1, kv.2]).mapM fromEntriesStep = .ok s := by
  induction s with
  | nil => rfl
  | cons kv rest ih =>
    obtain ⟨k, v⟩ := kv
    simp only [List.map_cons, List.mapM_cons, ih]
    rfl

theorem subchain_nil_left (s : List Char) : subchain [] s = true := by
  cases s <;> simp [subchain, List.isPrefixOf]

theorem isPrefixOf_append_right {n h : List Char} (s : List Char)
    (hp : n.isPrefixOf h = true) : n.isPrefixOf (h ++ s) = true := by
  induction n generalizing h with
  | nil => simp [List.isPrefixOf]
  | cons a as ih =>
    cases h with
    | nil => simp [List.isPrefixOf] at hp
    | cons b bs =>
      simp only [List.isPrefixOf, Bool.and_eq_true, beq_iff_eq] at hp
      simp only [List.cons_append, List.isPrefixOf, Bool.and_eq_true, beq_iff_eq]
      exact ⟨hp.1, ih hp.2⟩

theorem subchain_append_right {n h2 : List Char} (s : List Char)
    (ho : subchain n h2 = true) : subchain n (h2 ++ s) = true := by
  induction h2 with
  | nil =>
    have hn : n = [] := by
      simpa [subchain, List.isEmpty_iff] using ho
    subst hn
    exact subchain_nil_left s
  | cons c t ih =>
    show (n.isPrefixOf (c :: t ++ s) || subchain n (t ++ s)) = true
    rcases (Bool.or_eq_true _ _).mp ho with hp | ht
    · rw [isPrefixOf_append_right s hp]
      rfl
    · rw [ih ht, Bool.or_true]

theorem strOccurs_append_left (p : String) {n h : String}
    (ho : strOccurs n h = true) : strOccurs n (p ++ h) = true := by
  show subchain n.data (p ++ h).data = true
  rw [String.data_append]
  exact subchain_append_left p.data ho

theorem strOccurs_append_right {n h : String} (s : String)
    (ho : strOccurs n h = true) : strOccurs n (h ++ s) = true := by
  show subchain n.data (h ++ s).data = true
  rw [String.data_append]
  exact subchain_append_right s.data ho

/-- Every key of a rendered argument map appears verbatim in the
rendering. -/
theorem renderPairs_names (kv : String × Value) (m : List (String × Value))
    (h : kv ∈ m) : ∃ pre suf, (renderPairs m).data = pre ++ kv.1.data ++ suf := by
  induction m with
  | nil => cases h
  | cons p rest ih =>
    rcases List.mem_cons.mp h with rfl | h'
    · obtain ⟨k, v⟩ := kv
      cases rest with
      | nil =>
        refine ⟨"\x22".data, ("\x22: " ++ renderValue v).data, ?_⟩
        simp [renderPairs, renderPair, String.data_append, List.append_assoc]
      | cons q rest' =>
        refine ⟨"\x22".data,
          ("\x22: " ++ renderValue v ++ ", " ++ renderPairs (q :: rest')).data, ?_⟩
        simp [renderPairs, renderPair, String.data_append, List.append_assoc]
    · cases rest with
      | nil => cases h'
      | cons q rest' =>
        obtain ⟨pre, suf, hps⟩ := ih h'
        obtain ⟨pk, pv⟩ := p
        refine ⟨(renderPair pk pv ++ ", ").data ++ pre, suf, ?_⟩
        simp [renderPairs, String.data_append, hps, List.append_assoc]

/-- Every key of an argument map is named in its `{args:?}` rendering. -/
theorem renderArgsMap_names (kv : String × Value) (m : List (String × Value))
    (h : kv ∈ m) : strOccurs kv.1 (renderArgsMap m) = true := by
  obtain ⟨pre, suf, hps⟩ := renderPairs_names kv m h
  refine strOccurs_of_data_decomp _ _ ("\x7b".data ++ pre) (suf ++ "\x7d".data) ?_
  simp [renderArgsMap, String.data_append, hps, List.append_assoc]

/-- Concrete `String` order facts (`String.ltb` is well-founded recursion,
so `decide` cannot evaluate `<` on `String` directly). -/
theorem string_lt_ab : ("a" : String) < "b" :=
  String.lt_iff_toList_lt.mpr (by decide)

/-- The two-entry maps used as concrete witnesses satisfy the `BTreeMap`
invariant. -/
theorem sortedKeys_ab (v w : Value) : SortedKeys [("a", v), ("b", w)] := by
  refine List.Pairwise.cons ?_ (List.pairwise_singleton _ _)
  intro p hp
  rcases List.mem_singleton.mp hp with rfl
  exact string_lt_ab

/-!  ### Claim theorems -/

/-- C1: for every `Structure` `s` (well-formed, i.e. satisfying the
`BTreeMap` strictly-ascending-keys invariant), applying `entries` and then
`from_entries` returns `s` itself: `from_entries(entries(s)) == s`. -/
theorem entries_from_entries_roundtrip (s : Structure) (h : SortedKeys s) :
    ∃ l : List Value, entries s = .ok (.list l)
      ∧ from_entries l = .ok (.structure s) := by
  have he : entries s
      = .ok (.list (s.map fun kv => Value.list [Value.str kv.1, kv.2])) := rfl
  refine ⟨s.map fun kv => Value.list [Value.str kv.1, kv.2], he, ?_⟩
  unfold from_entries
  rw [mapM_fromEntriesStep_entries s]
  show Except.ok (Value.structure (collectStructure s)) = _
  rw [collectStructure_of_sorted s h]

/-- Witness: the round trip evaluated at a concrete two-entry structure. -/
theorem entries_from_entries_roundtrip_witness :
    SortedKeys [("a", Value.int 1), ("b", Value.str "x")]
    ∧ ∃ l, entries [("a", Value.int 1), ("b", Value.str "x")] = .ok (.list l)
        ∧ from_entries l = .ok (.structure [("a", Value.int 1), ("b", Value.str "x")]) :=
  ⟨sortedKeys_ab _ _, entries_from_entries_roundtrip _ (sortedKeys_ab _ _)⟩

/-- C10: on a well-formed `Structure`, `keys`, `values` and `entries`
enumerate in the same ascending-key order and are mutually consistent: the
key list is sorted, and the `j`-th entry is the two-element list of the
`j`-th key and the `j`-th value. -/
theorem keys_values_entries_consistent (s : Structure) (h : SortedKeys s) :
    keys s = .ok (.list (s.map fun kv => .str kv.1))
  ∧ List.Pairwise (· < ·) (s.map fun kv => kv.1)
  ∧ valuesFilter s = .ok (.list (s.map fun kv => kv.2))
  ∧ entries s = .ok (.list (s.map fun kv => .list [.str kv.1, kv.2]))
  ∧ ∀ (j : Nat) (kv : String × Value), s[j]? = some kv →
      (s.map fun kv => Value.list [.str kv.1, kv.2])[j]? = some (.list [.str kv.1, kv.2])
      ∧ (s.map fun kv => Value.str kv.1)[j]? = some (.str kv.1)
      ∧ (s.map fun kv => kv.2)[j]? = some kv.2 := by
  refine ⟨rfl, ?_, rfl, rfl, ?_⟩
  · exact List.Pairwise.map _ (fun a b hab => hab) h
  · intro j kv hj
    refine ⟨?_, ?_, ?_⟩ <;> simp [List.getElem?_map, hj]

/-- Witness: mutual consistency evaluated at index 1 of a concrete
structure. -/
theorem keys_values_entries_consistent_witness :
    SortedKeys [("a", Value.int 1), ("b", Value.null)]
    ∧ ([("a", Value.int 1), ("b", Value.null)].map fun kv => Value.list [.str kv.1, kv.2])[1]?
        = some (.list [.str "b", .null])
    ∧ ([("a", Value.int 1), ("b", Value.null)].map fun kv => Value.str kv.1)[1]?
        = some (.str "b")
    ∧ ([("a", Value.int 1), ("b", Value.null)].map fun kv => kv.2)[1]? = some .null :=
  ⟨sortedKeys_ab _ _,
   (keys_values_entries_consistent [("a", Value.int 1), ("b", Value.null)]
     (sortedKeys_ab _ _)).2.2.2.2 1 ("b", Value.null) rfl⟩

/-- C2: `nth` returns the element at zero-based index `i` when
`0 ≤ i < n`, the element at index `n - |i|` when `-n ≤ i ≤ -1`, and fails
with an out-of-range error when `i ≥ n`; in particular
`nth([a,b,c], -1) = c`, `nth([a,b,c], 0) = a`, and `nth([a,b,c], 3)`
fails. -/
theorem nth_spec (l : List Value) (i : Int) (a b c : Value) :
    (0 ≤ i → i < l.length →
      ∃ v, l[i.toNat]? = some v ∧ nth l i = some (.ok v))
  ∧ (-(l.length : Int) ≤ i → i ≤ -1 →
      ∃ v, l[l.length - i.natAbs]? = some v ∧ nth l i = some (.ok v))
  ∧ ((l.length : Int) ≤ i → nth l i = some (.error ""))
  ∧ nth [a, b, c] (-1) = some (.ok c)
  ∧ nth [a, b, c] 0 = some (.ok a)
  ∧ nth [a, b, c] 3 = some (.error "") := by
  refine ⟨?_, ?_, ?_, rfl, rfl, rfl⟩
  · intro h0 hlen
    have hni : ¬ i ≤ -1 := by omega
    have hlt : i.toNat < l.length := by omega
    have hsome : l[i.toNat]? = some l[i.toNat] := List.getElem?_eq_getElem hlt
    exact ⟨l[i.toNat], hsome, by simp [nth, if_neg hni, hsome]⟩
  · intro hn h1
    have hle : i.natAbs ≤ l.length := by omega
    have hcs : checkedSub l.length i.natAbs = some (l.length - i.natAbs) := by
      simp [checkedSub, hle]
    have hlt : l.length - i.natAbs < l.length := by omega
    have hsome : l[l.length - i.natAbs]? = some l[l.length - i.natAbs] :=
      List.getElem?_eq_getElem hlt
    exact ⟨l[l.length - i.natAbs], hsome, by simp [nth, if_pos h1, hcs, hsome]⟩
  · intro hge
    have hni : ¬ i ≤ -1 := by omega
    have hnone : l[i.toNat]? = none := by
      rw [List.getElem?_eq_none_iff]
      omega
    simp [nth, if_neg hni, hnone]

/-- Witness: the three regimes of `nth` at concrete inputs. -/
theorem nth_spec_witness :
    (∃ v, [Value.int 7, Value.int 8][(1 : Int).toNat]? = some v
        ∧ nth [Value.int 7, Value.int 8] 1 = some (.ok v))
  ∧ (∃ v, [Value.int 7,
        Value.int 8][[Value.int 7, Value.int 8].length - (-2 : Int).natAbs]? = some v
        ∧ nth [Value.int 7, Value.int 8] (-2) = some (.ok v))
  ∧ nth [Value.int 7, Value.int 8] 5 = some (.error "") :=
  ⟨(nth_spec [Value.int 7, Value.int 8] 1 .null .null .null).1 (by decide) (by decide),
   (nth_spec [Value.int 7, Value.int 8] (-2) .null .null .null).2.1 (by decide) (by decide),
   (nth_spec [Value.int 7, Value.int 8] 5 .null .null .null).2.2.1 (by decide)⟩

/-- C3 (the code evaluated at the failing input): for an index more
negative than `-len`, the debug-profile subtraction
`value.len() - i.unsigned_abs()` underflows and panics — the model yields
`none`, not a defined error value — while under the release (wrapping)
profile the same call reaches the out-of-range error. -/
theorem nth_underflow_crashes :
    nth [Value.null] (-5) = none ∧ nthWrap [Value.null] (-5) = .error "" :=
  ⟨rfl, rfl⟩

/-- C4 counterexample: at the out-of-range call `nth([10,20,30], 3)` the
returned error is `bail!("")` — the empty message, which does not name the
offending index (the text `3` does not occur in it, nor does anything
else). -/
theorem nth_error_uninformative :
    nth [Value.int 10, Value.int 20, Value.int 30] 3 = some (.error "")
  ∧ strOccurs "3" "" = false :=
  ⟨rfl, rfl⟩

/-- C4 amended: every failure `nth` surfaces is the empty-message error —
out-of-range failures are reported, but the error names neither the index
nor the length. -/
theorem nth_error_is_empty (l : List Value) (i : Int) (e : String)
    (h : nth l i = some (.error e)) : e = "" := by
  unfold nth at h
  split at h
  · exact Option.noConfusion h
  · split at h
    · simp at h
    · simp at h
      exact h.symm

/-- Witness: the amended C4 theorem applied at `nth([Null], 3)`. -/
theorem nth_error_is_empty_witness :
    nth [Value.null] 3 = some (.error "") ∧ ("" : String) = "" :=
  ⟨rfl, nth_error_is_empty [Value.null] 3 "" rfl⟩

/-- C5 counterexample: `int` does not truncate every Float input toward
zero — the `as i64` cast saturates.  At the float `2^64` (exactly
representable in `f64`) the filter returns `i64::MAX = 2^63 - 1`, while the
truncation toward zero of `2^64` is `2^64` itself; so the output is not the
truncation. -/
theorem int_float_saturates :
    intFilter (.inr (.inl (mkRat (2 ^ 64) 1))) = .ok (.int (2 ^ 63 - 1))
  ∧ ratTrunc (mkRat (2 ^ 64) 1) = 2 ^ 64
  ∧ intFilter (.inr (.inl (mkRat (2 ^ 64) 1)))
      ≠ .ok (.int (ratTrunc (mkRat (2 ^ 64) 1))) := by
  refine ⟨rfl, rfl, ?_⟩
  intro h
  have h' : (Except.ok (Value.int (2 ^ 63 - 1)) : Except String Value)
      = .ok (.int ((2 : Int) ^ 64)) := h
  injection h' with h1
  injection h1 with h2
  exact absurd h2 (by decide)

/-- C5 amended: `int` is the identity on Integer inputs; a Float input goes
through the `as i64` cast — truncation toward zero whenever the truncated
value lies within the `i64` range, and saturation to `i64::MAX` /
`i64::MIN` when the truncation lies above / below that range; a String
input is parsed as a base-10 integer, the parse failure naming the
offending text; in particular `int("42") = Integer(42)`,
`int(3.9) = Integer(3)` (`3.9 = mkRat 39 10`), and `int("abc")` fails with
an error containing `abc`. -/
theorem int_filter_spec (n m : Int) (q : Rat) (s : String) :
    intFilter (.inl n) = .ok (.int n)
  ∧ (-(2 ^ 63) ≤ ratTrunc q → ratTrunc q ≤ 2 ^ 63 - 1 →
      intFilter (.inr (.inl q)) = .ok (.int (ratTrunc q)))
  ∧ (2 ^ 63 - 1 ≤ ratTrunc q →
      intFilter (.inr (.inl q)) = .ok (.int (2 ^ 63 - 1)))
  ∧ (ratTrunc q ≤ -(2 ^ 63) →
      intFilter (.inr (.inl q)) = .ok (.int (-(2 ^ 63))))
  ∧ (parseI64 s = some m → intFilter (.inr (.inr s)) = .ok (.int m))
  ∧ (parseI64 s = none →
      intFilter (.inr (.inr s)) = .error ("`" ++ s ++ "` is not an integer.")
      ∧ strOccurs s ("`" ++ s ++ "` is not an integer.") = true)
  ∧ intFilter (.inr (.inr "42")) = .ok (.int 42)
  ∧ intFilter (.inr (.inl (mkRat 39 10))) = .ok (.int 3)
  ∧ intFilter (.inr (.inr "abc")) = .error "`abc` is not an integer."
  ∧ strOccurs "abc" "`abc` is not an integer." = true := by
  refine ⟨rfl, ?_, ?_, ?_, ?_, ?_, rfl, rfl, rfl, rfl⟩
  · intro h1 h2
    simp only [intFilter, f64ToI64Cast]
    rw [min_eq_right h2, max_eq_right h1]
  · intro h
    simp only [intFilter, f64ToI64Cast]
    rw [min_eq_left h, max_eq_right (by decide : -(2 ^ 63 : Int) ≤ 2 ^ 63 - 1)]
  · intro h
    simp only [intFilter, f64ToI64Cast]
    rw [min_eq_right (le_trans h (by decide : -(2 ^ 63 : Int) ≤ 2 ^ 63 - 1)),
      max_eq_left h]
  · intro hp
    simp [intFilter, hp]
  · intro hp
    refine ⟨by simp [intFilter, hp], ?_⟩
    refine strOccurs_of_data_decomp _ _ "`".data "` is not an integer.".data ?_
    simp [String.data_append, List.append_assoc]

/-- Witness: the `int` branches with hypotheses — truncation at `q = -7/2`
(toward zero to `-3`), saturation above at `q = 2^64` and below at
`q = -2^64`, the parse success `"-12"`, and the parse failure `"12c"`. -/
theorem int_filter_spec_witness :
    intFilter (.inr (.inl (mkRat (-7) 2))) = .ok (.int (ratTrunc (mkRat (-7) 2)))
  ∧ intFilter (.inr (.inl (mkRat (2 ^ 64) 1))) = .ok (.int (2 ^ 63 - 1))
  ∧ intFilter (.inr (.inl (mkRat (-(2 ^ 64)) 1))) = .ok (.int (-(2 ^ 63)))
  ∧ intFilter (.inr (.inr "-12")) = .ok (.int (-12))
  ∧ (intFilter (.inr (.inr "12c")) = .error ("`" ++ "12c" ++ "` is not an integer.")
      ∧ strOccurs "12c" ("`" ++ "12c" ++ "` is not an integer.") = true) :=
  ⟨(int_filter_spec 0 0 (mkRat (-7) 2) "").2.1 (by decide) (by decide),
   (int_filter_spec 0 0 (mkRat (2 ^ 64) 1) "").2.2.1 (by decide),
   (int_filter_spec 0 0 (mkRat (-(2 ^ 64)) 1) "").2.2.2.1 (by decide),
   (int_filter_spec 0 (-12) 0 "-12").2.2.2.2.1 (by decide),
   (int_filter_spec 0 0 0 "12c").2.2.2.2.2.1 (by decide)⟩

/-- C6: in the generated argument deserializer, once every declared field
has been extracted, a non-empty remainder makes deserialization fail with
an error naming all leftover argument names at once (each leftover key
occurs in the message); and a filter declaring zero named parameters (the
generated marker-only deserializer and the hand-written `()` instance
alike) rejects every non-empty argument map. -/
theorem unexpected_args_reported_whole
    (coerce : String → Option Value → Except String Value)
    (fields : List String) (args : List (String × Value))
    (vs : List Value) (rest : List (String × Value)) :
    (extractFields coerce fields args = .ok (vs, rest) → rest ≠ [] →
        derivedArgsDeserialize coerce fields args =
          .error ("Found unexpected arguments " ++ renderArgsMap rest)
      ∧ ∀ kv ∈ rest,
          strOccurs kv.1 ("Found unexpected arguments " ++ renderArgsMap rest) = true)
  ∧ (args ≠ [] →
        noArgsDeserialize args =
          .error ("Found unexpected arguments " ++ renderArgsMap args)
      ∧ unitArgsDeserialize args =
          .error ("Found unexpected arguments `" ++ renderArgsMap args ++ "`")
      ∧ ∀ kv ∈ args,
          strOccurs kv.1
            ("Found unexpected arguments `" ++ renderArgsMap args ++ "`") = true) := by
  constructor
  · intro hex hne
    have hrest : rest.isEmpty = false := by
      cases rest with
      | nil => exact absurd rfl hne
      | cons p t => rfl
    constructor
    · have hred : derivedArgsDeserialize coerce fields args
          = if rest.isEmpty = true then Except.ok vs
            else Except.error ("Found unexpected arguments " ++ renderArgsMap rest) := by
        unfold derivedArgsDeserialize
        rw [hex]
        rfl
      rw [hred, hrest]
      simp
    · intro kv hkv
      exact strOccurs_append_left _ (renderArgsMap_names kv rest hkv)
  · intro hne
    have hargs : args.isEmpty = false := by
      cases args with
      | nil => exact absurd rfl hne
      | cons p t => rfl
    refine ⟨by simp [noArgsDeserialize, hargs], by simp [unitArgsDeserialize, hargs], ?_⟩
    intro kv hkv
    exact strOccurs_append_right _
      (strOccurs_append_left _ (renderArgsMap_names kv args hkv))

/-- Witness: a map with two surplus keys `y`, `z` after extracting the one
declared field `x`, and a one-key map against the no-parameter
deserializers. -/
theorem unexpected_args_reported_whole_witness :
    extractFields (fun _ o => .ok (o.getD .null)) ["x"]
        [("x", Value.int 1), ("y", Value.null), ("z", Value.bool true)]
      = .ok ([Value.int 1], [("y", Value.null), ("z", Value.bool true)])
  ∧ (derivedArgsDeserialize (fun _ o => .ok (o.getD .null)) ["x"]
        [("x", Value.int 1), ("y", Value.null), ("z", Value.bool true)]
      = .error ("Found unexpected arguments "
          ++ renderArgsMap [("y", Value.null), ("z", Value.bool true)])
      ∧ ∀ kv ∈ ([("y", Value.null), ("z", Value.bool true)] : List (String × Value)),
          strOccurs kv.1 ("Found unexpected arguments "
            ++ renderArgsMap [("y", Value.null), ("z", Value.bool true)]) = true)
  ∧ (noArgsDeserialize [("y", Value.null)]
      = .error ("Found unexpected arguments " ++ renderArgsMap [("y", Value.null)])
      ∧ unitArgsDeserialize [("y", Value.null)]
      = .error ("Found unexpected arguments `" ++ renderArgsMap [("y", Value.null)] ++ "`")
      ∧ ∀ kv ∈ ([("y", Value.null)] : List (String × Value)),
          strOccurs kv.1
            ("Found unexpected arguments `"
              ++ renderArgsMap [("y", Value.null)] ++ "`") = true) :=
  ⟨rfl,
   (unexpected_args_reported_whole (fun _ o => .ok (o.getD .null)) ["x"]
      [("x", Value.int 1), ("y", Value.null), ("z", Value.bool true)]
      [Value.int 1] [("y", Value.null), ("z", Value.bool true)]).1 rfl (by simp),
   (unexpected_args_reported_whole (fun _ o => .ok (o.getD .null)) ["x"]
      [("y", Value.null)] [] []).2 (by simp)⟩

/-- C7: dispatch on an unregistered name fails with the
unrecognized-filter error naming it; on a registered name it delegates to
that filter's erased adapter; and inside the adapter a value-coercion or
argument-deserialization failure short-circuits — the outcome is exactly
that failure and is independent of the filter body, which never runs on
malformed input. -/
theorem dispatch_filter_spec (parse : String → Option Rat) (name : String)
    (v : Value) (args : List (String × Value)) (ctx : ElementContext) :
    ((BUILTIN_FILTERS parse).lookup name = none →
      dispatch_filter parse name v args ctx =
        some (.error ("unrecognized filter `" ++ name ++ "`")))
  ∧ (∀ f, (BUILTIN_FILTERS parse).lookup name = some f →
      dispatch_filter parse name v args ctx = f v args ctx)
  ∧ (∀ (V A : Type) (coe : Value → Except String V)
       (des : List (String × Value) → Except String A)
       (body body' : V → A → ElementContext → FilterOut) (e : String),
        (coe v = .error e → applyDyn coe des body v args ctx = some (.error e))
      ∧ (∀ cv, coe v = .ok cv → des args = .error e →
          applyDyn coe des body v args ctx = some (.error e))
      ∧ (∀ cv a, coe v = .ok cv → des args = .ok a →
          applyDyn coe des body v args ctx = body cv a ctx)
      ∧ ((coe v = .error e ∨ des args = .error e) →
          applyDyn coe des body v args ctx = applyDyn coe des body' v args ctx)) := by
  refine ⟨?_, ?_, ?_⟩
  · intro h
    simp [dispatch_filter, h]
  · intro f h
    simp [dispatch_filter, h]
  · intro V A coe des body body' e
    refine ⟨?_, ?_, ?_, ?_⟩
    · intro h
      simp [applyDyn, h]
    · intro cv hc hd
      simp [applyDyn, hc, hd]
    · intro cv a hc hd
      simp [applyDyn, hc, hd]
    · intro h
      rcases h with h | h
      · simp [applyDyn, h]
      · cases hc : coe v with
        | error e' => simp [applyDyn, hc]
        | ok cv => simp [applyDyn, hc, h]

/-- Witness: dispatch of an unknown name, delegation for `strip`, and the
coercion short-circuit of the `strip` adapter on a non-`String` value. -/
theorem dispatch_filter_spec_witness :
    dispatch_filter (fun _ => none) "nope" Value.null [] [] =
      some (.error ("unrecognized filter `" ++ "nope" ++ "`"))
  ∧ dispatch_filter (fun _ => none) "strip" (Value.str " hi ") [] [] =
      stripDyn (Value.str " hi ") [] []
  ∧ applyDyn coerceString noArgsDeserialize
      (fun s _ ctx => liftPure ctx (strip s)) (Value.int 0) [] [] =
      some (.error (typeMismatchMsg "String" (Value.int 0))) :=
  ⟨(dispatch_filter_spec (fun _ => none) "nope" Value.null [] []).1 rfl,
   (dispatch_filter_spec (fun _ => none) "strip" (Value.str " hi ") [] []).2.1
      stripDyn rfl,
   ((dispatch_filter_spec (fun _ => none) "x" (Value.int 0) [] []).2.2 String Unit
      coerceString noArgsDeserialize
      (fun s _ ctx => liftPure ctx (strip s)) (fun s _ ctx => liftPure ctx (strip s))
      (typeMismatchMsg "String" (Value.int 0))).1 rfl⟩

/-- C8: `tee` returns the incoming value unchanged and its only effect is
the single `set_var` binding — the result is exactly `set_var`'s outcome
paired with the untouched value, so it fails precisely when the context
binding fails; with the modelled always-succeeding `set_var`, it binds
`into` and passes the value through. -/
theorem tee_passthrough
    (sv : String → Value → ElementContext → Except String ElementContext)
    (value : Value) (into : String) (ctx : ElementContext) :
    teeWith sv value into ctx = (sv into value ctx).map (fun c => (value, c))
  ∧ tee value into ctx = .ok (value, (into, value) :: ctx) := by
  constructor
  · cases h : sv into value ctx with
    | error e =>
      unfold teeWith
      rw [h]
      rfl
    | ok c =>
      unfold teeWith
      rw [h]
      rfl
  · rfl

/-- C9: the built-once registry holds exactly the twelve builtin names, in
particular not `id` (although `id` is defined as a filter in the source),
so dispatching `id` fails with the unrecognized-filter error for every
value, argument map and context. -/
theorem registry_names_exact (parse : String → Option Rat) (v : Value)
    (args : List (String × Value)) (ctx : ElementContext) :
    (BUILTIN_FILTERS parse).map Prod.fst =
      ["dbg", "tee", "strip", "take", "attrs", "int", "float", "nth",
       "keys", "values", "entries", "from_entries"]
  ∧ (BUILTIN_FILTERS parse).lookup "id" = none
  ∧ idFilter v = .ok v
  ∧ dispatch_filter parse "id" v args ctx =
      some (.error ("unrecognized filter `" ++ "id" ++ "`")) := by
  refine ⟨rfl, rfl, rfl, rfl⟩
